import Mathlib

/-!
Shallow embedding of the structured-content parser, bullet-line classifier,
content balancer and template-filling engine of
`src/code/script_generator.py` (class `SlideScriptGenerator`).

Text is modelled as `List Char` (a `Line`); a full multi-line text is a
single `Line` containing `'\n'` characters, split exactly as Python's
`str.split('\n')` does.  Python string primitives used by the source
(`strip`, `in` substring tests, `startswith`, `split`, `replace`,
`lstrip`) are re-implemented below with the same semantics (Python
`strip()` also removes some rare Unicode spaces; here the ASCII whitespace
set is used, which is what every marker/body line in this pipeline can
contain).

The slide-layout templates are external JSON data files (not source code),
so generated slides are modelled by the data the engine writes into the
cloned template: slide type, section number, title and pasted body text.
Out-of-range indexing (a Python `IndexError`) in the subtitle-filling code
is modelled as a no-op; all claims about that code assume the well-formed
template shape (two paragraphs of at least one run) that the guards in the
source expect.
-/

namespace SlideGen

abbrev Line := List Char

/-- Python `str` whitespace (ASCII part), used by `strip()`. -/
def pyWS (c : Char) : Bool :=
  c = ' ' || c = '\t' || c = '\n' || c = '\r' || c = Char.ofNat 11 || c = Char.ofNat 12

/-- Python `line.strip()`. -/
def pyStrip (l : Line) : Line :=
  ((l.dropWhile pyWS).reverse.dropWhile pyWS).reverse

/-- Python `pat in l` (substring containment). -/
def isSubstr (pat : Line) : Line → Bool
  | [] => List.isPrefixOf pat []
  | c :: rest => List.isPrefixOf pat (c :: rest) || isSubstr pat rest

/-- Split at the first occurrence of `sep`: `some (before, after)`, or
`none` when `sep` does not occur.  Mirrors Python `l.split(sep, 1)`. -/
def breakOnFirst (sep : Line) : Line → Option (Line × Line)
  | [] => if List.isPrefixOf sep ([] : Line) then some ([], []) else none
  | c :: rest =>
    if List.isPrefixOf sep (c :: rest) then some ([], (c :: rest).drop sep.length)
    else match breakOnFirst sep rest with
      | some (pre, post) => some (c :: pre, post)
      | none => none

/-- Python `l.split(sep, 1)[-1]`: the text after the first occurrence of
`sep`, or the whole string when `sep` is absent. -/
def splitTail (sep : Line) (l : Line) : Line :=
  match breakOnFirst sep l with
  | some (_, post) => post
  | none => l

/-- Python `l.split(c)` (split on every occurrence of a one-character
separator; always returns one more piece than there are separators). -/
def splitOnChar (c : Char) : Line → List Line
  | [] => [[]]
  | d :: rest =>
    match splitOnChar c rest with
    | [] => [[]]
    | h :: t => if d = c then [] :: h :: t else (d :: h) :: t

/-- Python `'\n'.join`. -/
def joinNL : List Line → Line
  | [] => []
  | [l] => l
  | l :: ls => l ++ '\n' :: joinNL ls

def toLine (s : String) : Line := s.toList

/-! ## Marker constants (exact strings tested by the source). -/

def dateMarker : Line := toLine "Report Date:"
def purposeMarkerEn : Line := toLine "Purpose Overview"
def purposeMarkerJa : Line := toLine "タスクの目的"
def taskWord : Line := toLine "Task"
def subtitleWord : Line := toLine "Subtitle"
def contentMarker : Line := toLine "- Content:"
def problemMarker : Line := toLine "Problem Description"
def solutionMarker : Line := toLine "Solution Process"
def resultsMarker : Line := toLine "Results & Analysis"
def futureMarkerEn : Line := toLine "Future Work"
def futureMarkerJa : Line := toLine "次の作業内容"
def mainGlyph : Line := toLine "●"
def subGlyph : Line := toLine "○"
def mainMark : Line := toLine "● "

/-! ## Data model of `_parse_structured_content`. -/

/-- The per-task dict built by the parser. -/
structure Task where
  title : Line := []
  problem : Line := []
  solution : Line := []
  result : Line := []
deriving DecidableEq

/-- `current_content_type` values. -/
inductive CType where
  | purposeTasks | subtitle | problem | solution | result | futureWork
deriving DecidableEq

/-- Section tags produced by `_detect_content_sections`. -/
inductive SecTag where
  | purpose | completed | future
deriving DecidableEq

/-- `_detect_content_sections`: count "Task ... Subtitle" lines and collect
section-divider tags. -/
def detectContentSections (lines : List Line) : Nat × List SecTag :=
  lines.foldl
    (fun acc raw =>
      let line := pyStrip raw
      if isSubstr taskWord line && isSubstr subtitleWord line then
        (acc.1 + 1, acc.2)
      else if isSubstr (toLine "Section Divider") line then
        if isSubstr (toLine "01") line then (acc.1, acc.2 ++ [SecTag.purpose])
        else if isSubstr (toLine "02") line then (acc.1, acc.2 ++ [SecTag.completed])
        else if isSubstr (toLine "03") line then (acc.1, acc.2 ++ [SecTag.future])
        else acc
      else acc)
    (0, [])

/-- Mutable loop state of `_parse_structured_content`. -/
structure ParseState where
  date : Line := []
  taskList : List Line := []
  tasks : List Task := []
  futureWork : Line := []
  currentTask : Option Task := none
  currentType : Option CType := none
  buffer : List Line := []
deriving DecidableEq

def initState : ParseState := {}

/-- `_save_current_content`: flush the buffer into the field named by the
content type (only the problem/solution/result types store anything). -/
def saveCurrentContent (t : Task) (ct : Option CType) (buf : List Line) : Task :=
  if buf = [] then t
  else
    let text := joinNL buf
    match ct with
    | some CType.problem => { t with problem := text }
    | some CType.solution => { t with solution := text }
    | some CType.result => { t with result := text }
    | _ => t

/-- Worker for `removeContentMarker`; the fuel only makes the recursion
structural (it starts at the line's length and every step consumes at
least one character, so it never runs out). -/
def removeCMAux : Nat → Line → Line
  | _, [] => []
  | 0, l => l
  | fuel + 1, c :: rest =>
    if List.isPrefixOf contentMarker (c :: rest) then
      removeCMAux fuel (rest.drop (contentMarker.length - 1))
    else c :: removeCMAux fuel rest

/-- Python `line.replace("- Content:", "")` (all occurrences). -/
def removeContentMarker (l : Line) : Line := removeCMAux l.length l

/-- Strip one pair of surrounding double quotes, as the source does with
`startswith('"') and endswith('"')` then `[1:-1]`. -/
def stripQuotes (l : Line) : Line :=
  if l.head? = some '"' && l.getLast? = some '"' then (l.drop 1).dropLast else l

/-- One iteration of the `for i, line in enumerate(lines)` loop of
`_parse_structured_content`, translated branch by branch (same `elif`
order). -/
def parseLine (s : ParseState) (raw : Line) : ParseState :=
  let line := pyStrip raw
  if isSubstr dateMarker line then
    { s with date := pyStrip ((splitOnChar ':' line).getD 1 []) }
  else if isSubstr purposeMarkerEn line || isSubstr purposeMarkerJa line then
    { s with currentType := some CType.purposeTasks, buffer := [] }
  else if isSubstr mainGlyph line && s.currentType = some CType.purposeTasks then
    { s with taskList := s.taskList ++ [line] }
  else if isSubstr subGlyph line && s.currentType = some CType.purposeTasks then
    if s.taskList ≠ [] then { s with taskList := s.taskList ++ [line] } else s
  else if isSubstr taskWord line && isSubstr subtitleWord line then
    let s1 :=
      match s.currentTask with
      | some t => { s with tasks := s.tasks ++ [saveCurrentContent t s.currentType s.buffer] }
      | none => s
    { s1 with currentTask := some {}, currentType := some CType.subtitle, buffer := [] }
  else if s.currentTask.isSome && List.isPrefixOf contentMarker line
      && s.currentType = some CType.subtitle then
    let titlePart := stripQuotes (pyStrip (removeContentMarker line))
    { s with currentTask := s.currentTask.map (fun t => { t with title := titlePart }) }
  else if isSubstr problemMarker line then
    { s with currentTask := s.currentTask.map (fun t => saveCurrentContent t s.currentType s.buffer),
             currentType := some CType.problem, buffer := [] }
  else if isSubstr solutionMarker line then
    { s with currentTask := s.currentTask.map (fun t => saveCurrentContent t s.currentType s.buffer),
             currentType := some CType.solution, buffer := [] }
  else if isSubstr resultsMarker line then
    { s with currentTask := s.currentTask.map (fun t => saveCurrentContent t s.currentType s.buffer),
             currentType := some CType.result, buffer := [] }
  else if (isSubstr mainGlyph line || isSubstr subGlyph line)
      && (s.currentType = some CType.problem || s.currentType = some CType.solution
          || s.currentType = some CType.result) then
    { s with buffer := s.buffer ++ [line] }
  else if isSubstr futureMarkerEn line || isSubstr futureMarkerJa line then
    { s with currentType := some CType.futureWork, buffer := [] }
  else if isSubstr mainGlyph line && s.currentType = some CType.futureWork then
    { s with futureWork := line }
  else s

/-- The post-loop "Save last task" block of `_parse_structured_content`. -/
def finalizeParse (s : ParseState) : ParseState :=
  match s.currentTask with
  | some t => { s with tasks := s.tasks ++ [saveCurrentContent t s.currentType s.buffer] }
  | none => s

def runParser (lines : List Line) : ParseState :=
  finalizeParse (lines.foldl parseLine initState)

/-- The dict returned by `_parse_structured_content` (with the
`detected_info` entry flattened into two fields). -/
structure Content where
  date : Line
  taskList : List Line
  tasks : List Task
  futureWork : Line
  detectedTaskCount : Nat
  detectedSections : List SecTag
deriving DecidableEq

def parseStructuredContent (text : Line) : Content :=
  let lines := splitOnChar '\n' text
  let detected := detectContentSections lines
  let s := runParser lines
  { date := s.date, taskList := s.taskList, tasks := s.tasks,
    futureWork := s.futureWork,
    detectedTaskCount := detected.1, detectedSections := detected.2 }

/-! ## `_parse_bullet_content` (bullet-line classifier / body builder).

A produced paragraph dict also carries the constants
`font = {name: "Noto Sans JP", size_pt: 14.0}`, `alignment = "left"` and
`line_spacing = {value: 1.15}`; only the per-line fields (run text, level,
bullet glyph, bullet type) vary and are modelled. -/

structure BulletPara where
  text : Line
  level : Nat
  bulletChar : Char
  bulletType : Line
deriving DecidableEq

/-- The body of the per-line loop of `_parse_bullet_content`, on an
already stripped, non-blank line. -/
def parseBulletLine (line : Line) : BulletPara :=
  if List.isPrefixOf mainMark line then
    { text := pyStrip (line.drop 2), level := 0, bulletChar := '●', bulletType := toLine "bullet" }
  else if isSubstr subGlyph line then
    { text := pyStrip (splitTail subGlyph line), level := 1, bulletChar := '○',
      bulletType := toLine "bullet" }
  else
    { text := line, level := 0, bulletChar := '●', bulletType := toLine "bullet" }

/-- `_parse_bullet_content`: split on newlines, strip, skip blanks, build
one paragraph per remaining line. -/
def parseBulletContent (content : Line) : List BulletPara :=
  (splitOnChar '\n' content).foldl
    (fun acc raw =>
      let line := pyStrip raw
      if line = [] then acc else acc ++ [parseBulletLine line])
    []

/-! ## `_balance_content_distribution` (content balancer). -/

/-- Loop state of `_balance_content_distribution`.  Python appends the
string `'\n'.join(current_chunk)` to `balanced_chunks` at each emission;
here a chunk is kept as its list of lines and joined by the wrapper. -/
structure BalanceState where
  chunks : List (List Line) := []
  cur : List Line := []
  mainPoint : Option Line := none
  subCount : Nat := 0
deriving DecidableEq

def balanceStep (maxSub : Nat) (st : BalanceState) (raw : Line) : BalanceState :=
  let line := pyStrip raw
  if line = [] then st
  else if List.isPrefixOf mainMark line then
    let st1 :=
      if st.cur ≠ [] ∧ st.subCount > 0 then
        { st with chunks := st.chunks ++ [st.cur], cur := [], subCount := 0 }
      else st
    { st1 with mainPoint := some line, cur := [line] }
  else if isSubstr subGlyph line then
    if st.subCount ≥ maxSub then
      { st with chunks := st.chunks ++ [st.cur],
                cur := match st.mainPoint with
                  | some m => [m, line]
                  | none => [line],
                subCount := 1 }
    else { st with cur := st.cur ++ [line], subCount := st.subCount + 1 }
  else { st with cur := st.cur ++ [line] }

/-- The chunks produced by `_balance_content_distribution`, each as its
list of (stripped, non-blank) lines. -/
def balanceChunks (lines : List Line) (maxSub : Nat) : List (List Line) :=
  let st := lines.foldl (balanceStep maxSub) {}
  if st.cur ≠ [] then st.chunks ++ [st.cur] else st.chunks

/-- `_balance_content_distribution` itself (joined chunk strings). -/
def balanceContentDistribution (content : Line) (maxSub : Nat) : List Line :=
  (balanceChunks (splitOnChar '\n' content) maxSub).map joinNL

/-! ## Subtitle branch of `_paste_text_to_slide`.

The run dicts of the template also carry font data; only the text is
written by this code, so a run is modelled by its text. -/

structure SubRun where
  text : Line
deriving DecidableEq

structure SubPara where
  runs : List SubRun
deriving DecidableEq

structure SubShape where
  paragraphs : List SubPara
deriving DecidableEq

/-- `shape["paragraphs"][i]["runs"][0]["text"] = t` (no-op when the run
list is empty, where Python would raise). -/
def setRun0 (p : SubPara) (t : Line) : SubPara :=
  match p.runs with
  | [] => p
  | _ :: rs => { runs := { text := t } :: rs }

/-- Write `t` into run 0 of paragraph `i` (no-op out of range, mirroring
the `len(...) >= i+1` guards of the source). -/
def setParaRun0 (ps : List SubPara) (i : Nat) (t : Line) : List SubPara :=
  ps.set i (setRun0 (ps.getD i { runs := [] }) t)

def dotSpace : Line := toLine ". "
def twoDot : Line := toLine "2."
def closeBracket : Line := toLine "】"

/-- `parts[0] + ". "` where `parts = title.split(". ", 1)`. -/
def subtitleNumberPart (title : Line) : Line :=
  (match breakOnFirst dotSpace title with | some (a, _) => a | none => title) ++ dotSpace

/-- `parts[1] if len(parts) > 1 else ""`. -/
def subtitleDescPart (title : Line) : Line :=
  match breakOnFirst dotSpace title with | some (_, b) => b | none => []

/-- `desc_part[:desc_part.find("】") + 1]` (only used when `"】"` occurs). -/
def subtitleCodePart (d : Line) : Line :=
  (match breakOnFirst closeBracket d with | some (a, _) => a | none => d) ++ closeBracket

/-- `desc_part[code_end:].lstrip(": ")`. -/
def subtitleDescOnly (d : Line) : Line :=
  (match breakOnFirst closeBracket d with | some (_, b) => b | none => []).dropWhile
    (fun c => c = ':' || c = ' ')

/-- The `slide_type == "subtitle"` branch of `_paste_text_to_slide`,
acting on the slide's shape list. -/
def pasteTextToSubtitleSlide (shapes : List SubShape) (title : Line) : List SubShape :=
  match shapes with
  | [] => shapes
  | shape :: rest =>
    if title = [] then shape :: rest
    else if shape.paragraphs = [] then shape :: rest
    else
      let ps := shape.paragraphs
      let ps' :=
        if isSubstr dotSpace title && List.isPrefixOf twoDot title then
          if isSubstr closeBracket (subtitleDescPart title) then
            setParaRun0
              (setParaRun0 ps 0 (subtitleNumberPart title
                ++ subtitleCodePart (subtitleDescPart title)))
              1 (pyStrip (subtitleDescOnly (subtitleDescPart title)))
          else setParaRun0 ps 0 title
        else setParaRun0 ps 0 title
      { paragraphs := ps' } :: rest

/-! ## `_paste_content_to_templates` (template-filling engine).

The five slide-layout templates are external JSON data files; a generated
slide is modelled by the template it clones plus the data
`_paste_cover_slide` / `_paste_section_divider` / `_paste_text_to_slide`
write into the clone (date, section number, title, raw body text). -/

inductive Slide where
  | cover (date : Line)
  | agenda
  | sectionDivider (number : Line) (title : Line)
  | content (title : Line) (body : Line)
  | subtitle (title : Line)
deriving DecidableEq

def purposeTitle : Line := toLine "1. タスクの目的"
def completedTitle : Line := toLine "2. 完了済み作業"
def futureTitle : Line := toLine "3. 次の作業内容"

def hasFutureTag (l : List SecTag) : Bool := l.any (fun s => s = SecTag.future)

def taskSlides (t : Task) : List Slide :=
  [Slide.subtitle t.title]
  ++ (if t.problem = [] then [] else [Slide.content completedTitle t.problem])
  ++ (if t.solution = [] then []
      else (balanceContentDistribution t.solution 3).map
        (fun chunk => Slide.content completedTitle chunk))
  ++ (if t.result = [] then [] else [Slide.content completedTitle t.result])

def pasteContentToTemplates (c : Content) : List Slide :=
  [Slide.cover c.date, Slide.agenda,
   Slide.sectionDivider (toLine "01") (toLine "タスクの目的"),
   Slide.content purposeTitle (joinNL c.taskList),
   Slide.sectionDivider (toLine "02") (toLine "完了済み作業")]
  ++ (c.tasks.map taskSlides).flatten
  ++ (if hasFutureTag c.detectedSections then
        [Slide.sectionDivider (toLine "03") (toLine "次の作業内容")]
        ++ (if c.futureWork = [] then [] else [Slide.content futureTitle c.futureWork])
      else [])

/-- `generate_from_structured_format`, minus the file I/O. -/
def generateFromStructuredFormat (text : Line) : List Slide :=
  pasteContentToTemplates (parseStructuredContent text)

/-! ## Line-classification predicates (the branch tests shared by
`_parse_bullet_content` and `_balance_content_distribution`). -/

/-- `line.startswith("● ")`: a level-0 bullet line. -/
def isMainLine (l : Line) : Bool := List.isPrefixOf mainMark l

/-- A level-1 bullet line: not a level-0 line, but containing `"○"`
(this is exactly the line shape that takes the `elif "○" in line` branch
in both functions). -/
def isSubLine (l : Line) : Bool := !(List.isPrefixOf mainMark l) && isSubstr subGlyph l

/-- The per-chunk invariant of claim C4: at most `maxSub` level-1 lines,
and if the chunk holds any level-1 line its first line is level-0. -/
def chunkOK (maxSub : Nat) (c : List Line) : Bool :=
  decide (c.countP isSubLine ≤ maxSub) &&
  (!(c.any isSubLine) || (match c with | [] => true | h :: _ => isMainLine h))

/-- No level-1 bullet line occurs before the first level-0 bullet line. -/
def noEarlySubs (lines : List Line) : Bool :=
  (lines.takeWhile (fun l => !(isMainLine (pyStrip l)))).all
    (fun l => !(isSubLine (pyStrip l)))

/-- A line containing both `"Task"` and `"Subtitle"` (the parser's
new-task marker test and the test counted by
`_detect_content_sections`). -/
def taskMarkerLine (l : Line) : Bool :=
  isSubstr taskWord l && isSubstr subtitleWord l

/-- A task-marker line that none of the earlier branches of the
`elif` cascade can capture: it holds no date marker, no purpose marker
and no bullet glyph. -/
def cleanTaskMarker (l : Line) : Bool :=
  !(isSubstr dateMarker l) && !(isSubstr purposeMarkerEn l)
  && !(isSubstr purposeMarkerJa l) && !(isSubstr mainGlyph l)
  && !(isSubstr subGlyph l)

/-- Specification of the `date` field for the amended claim C6, written
from the amended claim's words: every line containing the date marker
overwrites `date` with the text between its first and second colon,
trimmed, so the last such line wins. -/
def dateClaimSpec (lines : List Line) : Line :=
  lines.foldl
    (fun d raw =>
      let l := pyStrip raw
      if isSubstr dateMarker l then pyStrip ((splitOnChar ':' l).getD 1 []) else d)
    []

/-! ## Concrete fixtures used by counterexamples and witnesses. -/

/-- Scenario A input of claim C8: a date line, one task with problem,
solution (one sub-point) and result sections, no future-work marker. -/
def c8Input : Line := joinNL
  [toLine "Report Date: 20250815",
   toLine "Task Subtitle",
   toLine "- Content: \"T1\"",
   toLine "Problem Description",
   toLine "● P1",
   toLine "Solution Process",
   toLine "● S1",
   toLine "○ sub1",
   toLine "Results & Analysis",
   toLine "● R1"]

/-- A subtitle-slide text shape as the template provides it: one shape,
two paragraphs, one run each. -/
def subtitleShapeFixture : List SubShape :=
  [{ paragraphs := [{ runs := [{ text := toLine "orig1" }] },
                    { runs := [{ text := toLine "orig2" }] }] }]

/-- A parser state sitting in the future-work section. -/
def futureStateFixture : ParseState :=
  { initState with currentType := some CType.futureWork,
                   futureWork := toLine "● A" }

/-- Loop invariant of the content balancer used to prove claim C4. -/
def balInv (maxSub : Nat) (st : BalanceState) : Prop :=
  st.chunks.all (chunkOK maxSub) = true ∧
  st.cur.countP isSubLine = st.subCount ∧
  st.subCount ≤ maxSub ∧
  (∀ m, st.mainPoint = some m → isMainLine m = true) ∧
  (st.mainPoint = none → st.cur.all (fun l => !(isSubLine l)) = true) ∧
  (st.mainPoint ≠ none → ∃ h t, st.cur = h :: t ∧ isMainLine h = true)

/-! # Support lemmas -/

theorem isSubstr_nil (l : Line) : isSubstr [] l = true := by
  cases l <;> simp [isSubstr, List.isPrefixOf]

theorem isSubstr_append_left (pat x l : Line) (h : isSubstr pat l = true) :
    isSubstr pat (x ++ l) = true := by
  induction x with
  | nil => simpa using h
  | cons c x ih => simp [isSubstr, ih]

theorem isSubstr_append_right (pat l t : Line) (h : isSubstr pat l = true) :
    isSubstr pat (l ++ t) = true := by
  induction l with
  | nil =>
    have : pat = [] := by
      cases pat with
      | nil => rfl
      | cons c cs => simp [isSubstr, List.isPrefixOf] at h
    subst this
    exact isSubstr_nil t
  | cons c l ih =>
    simp only [isSubstr, Bool.or_eq_true] at h
    rcases h with h | h
    · have hp : List.isPrefixOf pat (c :: l ++ t) = true := by
        rw [List.isPrefixOf_iff_prefix] at h ⊢
        exact h.trans (List.prefix_append _ _)
      rw [List.cons_append] at hp
      simp [isSubstr, hp]
    · simp [isSubstr, ih h]

theorem pyStrip_decomp (l : Line) : ∃ x y, l = x ++ pyStrip l ++ y := by
  refine ⟨l.takeWhile pyWS, ((l.dropWhile pyWS).reverse.takeWhile pyWS).reverse, ?_⟩
  conv_lhs => rw [← List.takeWhile_append_dropWhile (p := pyWS) (l := l)]
  rw [List.append_assoc]
  congr 1
  have h := List.takeWhile_append_dropWhile (p := pyWS) (l := (l.dropWhile pyWS).reverse)
  calc l.dropWhile pyWS
      = ((l.dropWhile pyWS).reverse).reverse := (List.reverse_reverse _).symm
    _ = (((l.dropWhile pyWS).reverse.takeWhile pyWS)
          ++ ((l.dropWhile pyWS).reverse.dropWhile pyWS)).reverse := by rw [h]
    _ = pyStrip l ++ ((l.dropWhile pyWS).reverse.takeWhile pyWS).reverse := by
          rw [List.reverse_append]; rfl

theorem isSubstr_of_pyStrip (pat l : Line) (h : isSubstr pat (pyStrip l) = true) :
    isSubstr pat l = true := by
  obtain ⟨x, y, hxy⟩ := pyStrip_decomp l
  rw [hxy, List.append_assoc]
  exact isSubstr_append_left _ _ _ (isSubstr_append_right _ _ _ h)

theorem isSubstr_pyStrip_false (pat l : Line) (h : isSubstr pat l = false) :
    isSubstr pat (pyStrip l) = false := by
  by_contra hc
  rw [Bool.not_eq_false] at hc
  rw [isSubstr_of_pyStrip pat l hc] at h
  simp at h

theorem splitOnChar_no_sep (c : Char) (l : Line) (h : c ∉ l) :
    splitOnChar c l = [l] := by
  induction l with
  | nil => rfl
  | cons d rest ih =>
    simp only [List.mem_cons, not_or] at h
    rw [splitOnChar, ih h.2]
    simp [Ne.symm h.1]

theorem breakOnFirst_char (c : Char) (pre post : Line) (h : c ∉ pre) :
    breakOnFirst [c] (pre ++ c :: post) = some (pre, post) := by
  induction pre with
  | nil => simp [breakOnFirst, List.isPrefixOf]
  | cons d pre ih =>
    simp only [List.mem_cons, not_or] at h
    have hne : (c == d) = false := by
      simp
      exact h.1
    rw [List.cons_append, breakOnFirst]
    simp only [List.isPrefixOf, hne, Bool.false_and, if_neg Bool.false_ne_true]
    rw [ih h.2]

theorem isSubstr_isSome (pat : Line) : ∀ l : Line,
    isSubstr pat l = (breakOnFirst pat l).isSome := by
  intro l
  induction l with
  | nil =>
    by_cases h : List.isPrefixOf pat ([] : Line) = true <;>
      simp [isSubstr, breakOnFirst, h]
  | cons c rest ih =>
    by_cases h : List.isPrefixOf pat (c :: rest) = true
    · simp [isSubstr, breakOnFirst, h]
    · rw [isSubstr, breakOnFirst, if_neg h]
      rw [Bool.eq_false_iff.mpr h]
      rw [Bool.false_or, ih]
      cases hb : breakOnFirst pat rest with
      | none => rfl
      | some p => cases p; rfl

theorem splitTail_char (c : Char) (pre post : Line) (h : c ∉ pre) :
    splitTail [c] (pre ++ c :: post) = post := by
  rw [splitTail, breakOnFirst_char c pre post h]

/-! # Parser and balancer lemmas -/

theorem parseLine_date (s : ParseState) (l : Line) :
    (parseLine s l).date
      = if isSubstr dateMarker (pyStrip l) = true then
          pyStrip ((splitOnChar ':' (pyStrip l)).getD 1 []) else s.date := by
  unfold parseLine
  by_cases h1 : isSubstr dateMarker (pyStrip l) = true
  · rw [if_pos h1, if_pos h1]
  · rw [if_neg h1, if_neg h1]
    by_cases h2 : (isSubstr purposeMarkerEn (pyStrip l) || isSubstr purposeMarkerJa (pyStrip l)) = true
    · rw [if_pos h2]
    rw [if_neg h2]
    by_cases h3 : (isSubstr mainGlyph (pyStrip l) && decide (s.currentType = some CType.purposeTasks)) = true
    · rw [if_pos h3]
    rw [if_neg h3]
    by_cases h4 : (isSubstr subGlyph (pyStrip l) && decide (s.currentType = some CType.purposeTasks)) = true
    · rw [if_pos h4]
      by_cases h4b : s.taskList ≠ []
      · rw [if_pos h4b]
      · rw [if_neg h4b]
    rw [if_neg h4]
    by_cases h5 : (isSubstr taskWord (pyStrip l) && isSubstr subtitleWord (pyStrip l)) = true
    · rw [if_pos h5]
      cases hc : s.currentTask <;> rfl
    rw [if_neg h5]
    by_cases h6 : (s.currentTask.isSome && List.isPrefixOf contentMarker (pyStrip l) && decide (s.currentType = some CType.subtitle)) = true
    · rw [if_pos h6]
    rw [if_neg h6]
    by_cases h7 : isSubstr problemMarker (pyStrip l) = true
    · rw [if_pos h7]
    rw [if_neg h7]
    by_cases h8 : isSubstr solutionMarker (pyStrip l) = true
    · rw [if_pos h8]
    rw [if_neg h8]
    by_cases h9 : isSubstr resultsMarker (pyStrip l) = true
    · rw [if_pos h9]
    rw [if_neg h9]
    by_cases h10 : ((isSubstr mainGlyph (pyStrip l) || isSubstr subGlyph (pyStrip l)) && (decide (s.currentType = some CType.problem) || decide (s.currentType = some CType.solution) || decide (s.currentType = some CType.result))) = true
    · rw [if_pos h10]
    rw [if_neg h10]
    by_cases h11 : (isSubstr futureMarkerEn (pyStrip l) || isSubstr futureMarkerJa (pyStrip l)) = true
    · rw [if_pos h11]
    rw [if_neg h11]
    by_cases h12 : (isSubstr mainGlyph (pyStrip l) && decide (s.currentType = some CType.futureWork)) = true
    · rw [if_pos h12]
    rw [if_neg h12]

theorem foldl_parseLine_date (lines : List Line) : ∀ s : ParseState,
    (lines.foldl parseLine s).date
      = lines.foldl
          (fun d raw =>
            if isSubstr dateMarker (pyStrip raw) = true then
              pyStrip ((splitOnChar ':' (pyStrip raw)).getD 1 []) else d)
          s.date := by
  induction lines with
  | nil => intro s; rfl
  | cons l rest ih =>
    intro s
    rw [List.foldl_cons, List.foldl_cons, ih, parseLine_date]

theorem finalizeParse_date (s : ParseState) : (finalizeParse s).date = s.date := by
  rw [finalizeParse]
  cases s.currentTask <;> rfl

theorem parseLine_count (s : ParseState) (l : Line)
    (H : taskMarkerLine (pyStrip l) = true → cleanTaskMarker (pyStrip l) = true) :
    (parseLine s l).tasks.length + (if (parseLine s l).currentTask.isSome then 1 else 0)
      = s.tasks.length + (if s.currentTask.isSome then 1 else 0)
        + (if taskMarkerLine (pyStrip l) = true then 1 else 0) := by
  by_cases hT : taskMarkerLine (pyStrip l) = true
  · have hc := H hT
    rw [cleanTaskMarker] at hc
    simp only [Bool.and_eq_true, Bool.not_eq_true'] at hc
    obtain ⟨⟨⟨⟨hd, hpe⟩, hpj⟩, hmg⟩, hsg⟩ := hc
    have hT' := hT
    rw [taskMarkerLine] at hT'
    have n1 : ¬ (isSubstr dateMarker (pyStrip l) = true) := by simp [hd]
    have n2 : ¬ ((isSubstr purposeMarkerEn (pyStrip l) || isSubstr purposeMarkerJa (pyStrip l)) = true) := by
      simp [hpe, hpj]
    have n3 : ¬ ((isSubstr mainGlyph (pyStrip l) && decide (s.currentType = some CType.purposeTasks)) = true) := by
      simp [hmg]
    have n4 : ¬ ((isSubstr subGlyph (pyStrip l) && decide (s.currentType = some CType.purposeTasks)) = true) := by
      simp [hsg]
    unfold parseLine
    rw [if_neg n1, if_neg n2, if_neg n3, if_neg n4, if_pos hT']
    cases hcur : s.currentTask <;> simp [hT, hcur]
  · have n5 : ¬ ((isSubstr taskWord (pyStrip l) && isSubstr subtitleWord (pyStrip l)) = true) := by
      rw [taskMarkerLine] at hT; exact hT
    unfold parseLine
    by_cases h1 : isSubstr dateMarker (pyStrip l) = true
    · rw [if_pos h1]; simp [hT]
    rw [if_neg h1]
    by_cases h2 : (isSubstr purposeMarkerEn (pyStrip l) || isSubstr purposeMarkerJa (pyStrip l)) = true
    · rw [if_pos h2]; simp [hT]
    rw [if_neg h2]
    by_cases h3 : (isSubstr mainGlyph (pyStrip l) && decide (s.currentType = some CType.purposeTasks)) = true
    · rw [if_pos h3]; simp [hT]
    rw [if_neg h3]
    by_cases h4 : (isSubstr subGlyph (pyStrip l) && decide (s.currentType = some CType.purposeTasks)) = true
    · rw [if_pos h4]
      by_cases h4b : s.taskList ≠ []
      · rw [if_pos h4b]; simp [hT]
      · rw [if_neg h4b]; simp [hT]
    rw [if_neg h4, if_neg n5]
    by_cases h6 : (s.currentTask.isSome && List.isPrefixOf contentMarker (pyStrip l) && decide (s.currentType = some CType.subtitle)) = true
    · rw [if_pos h6]
      cases hcur : s.currentTask <;> simp [hT, hcur]
    rw [if_neg h6]
    by_cases h7 : isSubstr problemMarker (pyStrip l) = true
    · rw [if_pos h7]
      cases hcur : s.currentTask <;> simp [hT, hcur]
    rw [if_neg h7]
    by_cases h8 : isSubstr solutionMarker (pyStrip l) = true
    · rw [if_pos h8]
      cases hcur : s.currentTask <;> simp [hT, hcur]
    rw [if_neg h8]
    by_cases h9 : isSubstr resultsMarker (pyStrip l) = true
    · rw [if_pos h9]
      cases hcur : s.currentTask <;> simp [hT, hcur]
    rw [if_neg h9]
    by_cases h10 : ((isSubstr mainGlyph (pyStrip l) || isSubstr subGlyph (pyStrip l)) && (decide (s.currentType = some CType.problem) || decide (s.currentType = some CType.solution) || decide (s.currentType = some CType.result))) = true
    · rw [if_pos h10]; simp [hT]
    rw [if_neg h10]
    by_cases h11 : (isSubstr futureMarkerEn (pyStrip l) || isSubstr futureMarkerJa (pyStrip l)) = true
    · rw [if_pos h11]; simp [hT]
    rw [if_neg h11]
    by_cases h12 : (isSubstr mainGlyph (pyStrip l) && decide (s.currentType = some CType.futureWork)) = true
    · rw [if_pos h12]; simp [hT]
    · rw [if_neg h12]; simp [hT]

theorem foldl_parseLine_count (lines : List Line) : ∀ s : ParseState,
    (∀ l ∈ lines, taskMarkerLine (pyStrip l) = true → cleanTaskMarker (pyStrip l) = true) →
    (lines.foldl parseLine s).tasks.length
        + (if (lines.foldl parseLine s).currentTask.isSome then 1 else 0)
      = s.tasks.length + (if s.currentTask.isSome then 1 else 0)
        + lines.countP (fun l => taskMarkerLine (pyStrip l)) := by
  induction lines with
  | nil => intro s _; simp
  | cons l rest ih =>
    intro s H
    rw [List.foldl_cons, List.countP_cons]
    have h1 := ih (parseLine s l) (fun x hx => H x (List.mem_cons_of_mem l hx))
    have h2 := parseLine_count s l (H l (List.mem_cons_self l rest))
    omega

theorem finalizeParse_count (s : ParseState) :
    (finalizeParse s).tasks.length
      = s.tasks.length + (if s.currentTask.isSome then 1 else 0) := by
  rw [finalizeParse]
  cases hc : s.currentTask <;> simp [hc]

theorem chunkOK_intro (maxSub : Nat) (c : List Line)
    (h1 : c.countP isSubLine ≤ maxSub)
    (h2 : c.any isSubLine = true → ∃ hd tl, c = hd :: tl ∧ isMainLine hd = true) :
    chunkOK maxSub c = true := by
  rw [chunkOK.eq_def]
  refine (Bool.and_eq_true _ _).mpr ⟨by simpa using h1, ?_⟩
  by_cases ha : c.any isSubLine = true
  · obtain ⟨hd, tl, hc, hmain⟩ := h2 ha
    subst hc
    simp [hmain]
  · rw [Bool.not_eq_true] at ha
    simp [ha]

theorem balInv_cur_head (maxSub : Nat) (st : BalanceState) (hinv : balInv maxSub st)
    (hpos : 0 < st.subCount) :
    ∃ hd tl, st.cur = hd :: tl ∧ isMainLine hd = true := by
  obtain ⟨_, hcount, _, _, hnone, hsome⟩ := hinv
  cases hmp : st.mainPoint with
  | none =>
    have hz : st.cur.countP isSubLine = 0 := by
      rw [List.countP_eq_zero]
      intro a ha
      have := (List.all_eq_true.mp (hnone hmp)) a ha
      simpa using this
    rw [hz] at hcount
    omega
  | some m =>
    exact hsome (by simp [hmp])

theorem balanceStep_inv (maxSub : Nat) (hmax : 1 ≤ maxSub) (st : BalanceState) (raw : Line)
    (hinv : balInv maxSub st)
    (hearly : st.mainPoint = none → isSubLine (pyStrip raw) = false) :
    balInv maxSub (balanceStep maxSub st raw) := by
  obtain ⟨hchunks, hcount, hle, hmain, hnone, hsome⟩ := hinv
  unfold balanceStep
  by_cases hb : pyStrip raw = []
  · rw [if_pos hb]
    exact ⟨hchunks, hcount, hle, hmain, hnone, hsome⟩
  rw [if_neg hb]
  by_cases hm : List.isPrefixOf mainMark (pyStrip raw) = true
  · rw [if_pos hm]
    have hsubline : isSubLine (pyStrip raw) = false := by simp [isSubLine, hm]
    by_cases hemit : st.cur ≠ [] ∧ st.subCount > 0
    · rw [if_pos hemit]
      show balInv maxSub
        { chunks := st.chunks ++ [st.cur], cur := [pyStrip raw],
          mainPoint := some (pyStrip raw), subCount := 0 }
      refine ⟨?_, ?_, ?_, ?_, ?_, ?_⟩
      · show (st.chunks ++ [st.cur]).all (chunkOK maxSub) = true
        rw [List.all_append]
        refine (Bool.and_eq_true _ _).mpr ⟨hchunks, ?_⟩
        simp only [List.all_cons, List.all_nil, Bool.and_true]
        refine chunkOK_intro maxSub st.cur (hcount ▸ hle) ?_
        intro _
        exact balInv_cur_head maxSub st ⟨hchunks, hcount, hle, hmain, hnone, hsome⟩ hemit.2
      · show [pyStrip raw].countP isSubLine = 0
        simp [hsubline]
      · show 0 ≤ maxSub
        omega
      · intro m hm2
        simp only [Option.some_inj] at hm2
        subst hm2
        exact hm
      · intro hcontra
        simp at hcontra
      · intro _
        exact ⟨pyStrip raw, [], rfl, hm⟩
    · rw [if_neg hemit]
      show balInv maxSub
        { chunks := st.chunks, cur := [pyStrip raw],
          mainPoint := some (pyStrip raw), subCount := st.subCount }
      have hz : st.subCount = 0 := by
        by_cases hc : st.cur = []
        · rw [hc] at hcount
          simpa using hcount.symm
        · have hng : ¬ (st.subCount > 0) := fun h => hemit ⟨hc, h⟩
          omega
      refine ⟨hchunks, ?_, hle, ?_, ?_, ?_⟩
      · show [pyStrip raw].countP isSubLine = st.subCount
        simp [hsubline, hz]
      · intro m hm2
        simp only [Option.some_inj] at hm2
        subst hm2
        exact hm
      · intro hcontra
        simp at hcontra
      · intro _
        exact ⟨pyStrip raw, [], rfl, hm⟩
  rw [if_neg hm]
  have hmfalse : List.isPrefixOf mainMark (pyStrip raw) = false := by
    rw [Bool.not_eq_true] at hm
    exact hm
  by_cases hs : isSubstr subGlyph (pyStrip raw) = true
  · rw [if_pos hs]
    have hsubline : isSubLine (pyStrip raw) = true := by
      simp [isSubLine, hmfalse, hs]
    have hmp : st.mainPoint ≠ none := by
      intro hn
      rw [hearly hn] at hsubline
      simp at hsubline
    obtain ⟨m, hm2⟩ : ∃ m, st.mainPoint = some m := by
      cases hmp2 : st.mainPoint with
      | none => exact absurd hmp2 hmp
      | some m => exact ⟨m, rfl⟩
    obtain ⟨hd, tl, hcur, hhd⟩ := hsome hmp
    have hmline : isMainLine m = true := hmain m hm2
    have hmsub : isSubLine m = false := by
      have hpm : List.isPrefixOf mainMark m = true := hmline
      simp [isSubLine, hpm]
    by_cases hge : st.subCount ≥ maxSub
    · rw [if_pos hge, hm2]
      show balInv maxSub
        { chunks := st.chunks ++ [st.cur], cur := [m, pyStrip raw],
          mainPoint := some m, subCount := 1 }
      refine ⟨?_, ?_, hmax, ?_, ?_, ?_⟩
      · show (st.chunks ++ [st.cur]).all (chunkOK maxSub) = true
        rw [List.all_append]
        refine (Bool.and_eq_true _ _).mpr ⟨hchunks, ?_⟩
        simp only [List.all_cons, List.all_nil, Bool.and_true]
        refine chunkOK_intro maxSub st.cur (hcount ▸ hle) ?_
        intro _
        exact ⟨hd, tl, hcur, hhd⟩
      · show [m, pyStrip raw].countP isSubLine = 1
        simp [List.countP_cons, hmsub, hsubline]
      · intro m' hm3
        simp only [Option.some_inj] at hm3
        subst hm3
        exact hmline
      · intro hcontra
        simp at hcontra
      · intro _
        exact ⟨m, [pyStrip raw], rfl, hmline⟩
    · rw [if_neg hge]
      show balInv maxSub
        { chunks := st.chunks, cur := st.cur ++ [pyStrip raw],
          mainPoint := st.mainPoint, subCount := st.subCount + 1 }
      refine ⟨hchunks, ?_, show st.subCount + 1 ≤ maxSub by omega, hmain, ?_, ?_⟩
      · show (st.cur ++ [pyStrip raw]).countP isSubLine = st.subCount + 1
        rw [List.countP_append, hcount]
        simp [hsubline]
      · intro hcontra
        exact absurd hcontra hmp
      · intro _
        exact ⟨hd, tl ++ [pyStrip raw], by rw [hcur]; rfl, hhd⟩
  · rw [if_neg hs]
    have hsubline : isSubLine (pyStrip raw) = false := by simp [isSubLine, hs]
    show balInv maxSub
      { chunks := st.chunks, cur := st.cur ++ [pyStrip raw],
        mainPoint := st.mainPoint, subCount := st.subCount }
    refine ⟨hchunks, ?_, hle, hmain, ?_, ?_⟩
    · show (st.cur ++ [pyStrip raw]).countP isSubLine = st.subCount
      rw [List.countP_append, hcount]
      simp [hsubline]
    · intro hn
      show (st.cur ++ [pyStrip raw]).all (fun l => !(isSubLine l)) = true
      rw [List.all_append]
      refine (Bool.and_eq_true _ _).mpr ⟨hnone hn, ?_⟩
      simp [hsubline]
    · intro hmp
      obtain ⟨hd, tl, hcur, hhd⟩ := hsome hmp
      exact ⟨hd, tl ++ [pyStrip raw], by rw [hcur]; rfl, hhd⟩

theorem balanceStep_mainPoint (maxSub : Nat) (st : BalanceState) (raw : Line)
    (h : (balanceStep maxSub st raw).mainPoint = none) :
    st.mainPoint = none ∧ isMainLine (pyStrip raw) = false := by
  unfold balanceStep at h
  by_cases hb : pyStrip raw = []
  · rw [if_pos hb] at h
    refine ⟨h, ?_⟩
    rw [hb]
    decide
  rw [if_neg hb] at h
  by_cases hm : List.isPrefixOf mainMark (pyStrip raw) = true
  · rw [if_pos hm] at h
    by_cases hemit : st.cur ≠ [] ∧ st.subCount > 0
    · rw [if_pos hemit] at h
      simp at h
    · rw [if_neg hemit] at h
      simp at h
  rw [if_neg hm] at h
  have hmf : isMainLine (pyStrip raw) = false := by
    rw [isMainLine]
    rw [Bool.not_eq_true] at hm
    exact hm
  by_cases hs : isSubstr subGlyph (pyStrip raw) = true
  · rw [if_pos hs] at h
    by_cases hge : st.subCount ≥ maxSub
    · rw [if_pos hge] at h
      exact ⟨h, hmf⟩
    · rw [if_neg hge] at h
      exact ⟨h, hmf⟩
  · rw [if_neg hs] at h
    exact ⟨h, hmf⟩

theorem noEarlySubs_cons_of_main (l : Line) (rest : List Line)
    (hm : isMainLine (pyStrip l) = false)
    (h : noEarlySubs (l :: rest) = true) :
    isSubLine (pyStrip l) = false ∧ noEarlySubs rest = true := by
  rw [noEarlySubs, List.takeWhile_cons] at h
  rw [hm] at h
  simp only [Bool.not_false, if_pos] at h
  rw [List.all_cons] at h
  rw [Bool.and_eq_true] at h
  exact ⟨by simpa using h.1, h.2⟩

theorem balance_foldl_inv (maxSub : Nat) (hmax : 1 ≤ maxSub) :
    ∀ (lines : List Line) (st : BalanceState), balInv maxSub st →
      (st.mainPoint = none → noEarlySubs lines = true) →
      balInv maxSub (lines.foldl (balanceStep maxSub) st) := by
  intro lines
  induction lines with
  | nil => intro st hinv _; exact hinv
  | cons l rest ih =>
    intro st hinv H
    rw [List.foldl_cons]
    have hearly : st.mainPoint = none → isSubLine (pyStrip l) = false := by
      intro hn
      by_cases hm : isMainLine (pyStrip l) = true
      · have : List.isPrefixOf mainMark (pyStrip l) = true := hm
        simp [isSubLine, this]
      · rw [Bool.not_eq_true] at hm
        exact (noEarlySubs_cons_of_main l rest hm (H hn)).1
    refine ih (balanceStep maxSub st l) (balanceStep_inv maxSub hmax st l hinv hearly) ?_
    intro hn'
    obtain ⟨hn, hm⟩ := balanceStep_mainPoint maxSub st l hn'
    exact (noEarlySubs_cons_of_main l rest hm (H hn)).2

theorem subtitlePasteBracketCase (title : Line) (p0 p1 : SubPara) (rs : List SubPara)
    (ss : List SubShape)
    (h2 : List.isPrefixOf twoDot title = true)
    (hds : isSubstr dotSpace title = true)
    (hbr : isSubstr closeBracket (subtitleDescPart title) = true) :
    pasteTextToSubtitleSlide ({ paragraphs := p0 :: p1 :: rs } :: ss) title
      = { paragraphs :=
            setRun0 p0 (subtitleNumberPart title ++ subtitleCodePart (subtitleDescPart title))
            :: setRun0 p1 (pyStrip (subtitleDescOnly (subtitleDescPart title)))
            :: rs } :: ss := by
  have hne : ¬ (title = []) := by
    intro h
    subst h
    exact (by decide : ¬ (List.isPrefixOf twoDot ([] : Line) = true)) h2
  simp only [pasteTextToSubtitleSlide]
  rw [if_neg hne]
  rw [if_neg (show ¬ ((p0 :: p1 :: rs : List SubPara) = []) from by simp)]
  rw [if_pos (show (isSubstr dotSpace title && List.isPrefixOf twoDot title) = true from by
    simp [hds, h2])]
  rw [if_pos hbr]
  simp [setParaRun0]

theorem subtitlePasteDefaultCase (title : Line) (p0 p1 : SubPara) (rs : List SubPara)
    (ss : List SubShape)
    (hne : title ≠ [])
    (hor : (isSubstr dotSpace title && List.isPrefixOf twoDot title) = false
           ∨ isSubstr closeBracket (subtitleDescPart title) = false) :
    pasteTextToSubtitleSlide ({ paragraphs := p0 :: p1 :: rs } :: ss) title
      = { paragraphs := setRun0 p0 title :: p1 :: rs } :: ss := by
  simp only [pasteTextToSubtitleSlide]
  rw [if_neg hne]
  rw [if_neg (show ¬ ((p0 :: p1 :: rs : List SubPara) = []) from by simp)]
  by_cases hcond : (isSubstr dotSpace title && List.isPrefixOf twoDot title) = true
  · rw [if_pos hcond]
    rcases hor with hor | hor
    · rw [hcond] at hor; exact absurd hor (by simp)
    · rw [if_neg (by simp [hor])]
      simp [setParaRun0]
  · rw [if_neg hcond]
    simp [setParaRun0]

/-! # Claim theorems -/

/-- C1 counterexample: the input consisting of the single line
"Report Date: Task Subtitle" contains one line with both "Task" and
"Subtitle", yet the parser produces zero tasks — the date branch of the
elif cascade captures the line first, so the claimed equality fails. -/
theorem c1_counterexample :
    (parseStructuredContent (toLine "Report Date: Task Subtitle")).tasks.length = 0 ∧
    ((splitOnChar '\n' (toLine "Report Date: Task Subtitle")).countP
        (fun l => taskMarkerLine l)) = 1 := by decide

/-- C1 (amended): if no line containing both "Task" and "Subtitle" also
contains the date marker, a purpose-overview marker or a bullet glyph
(the substrings captured by earlier branches of the cascade), then the
number of parsed tasks equals the number of task-marker lines; in
particular a task whose title was never set is still appended, and the
task in progress at end-of-input is flushed and appended. -/
theorem c1_task_count (text : Line)
    (H : ∀ l ∈ splitOnChar '\n' text,
          taskMarkerLine (pyStrip l) = true → cleanTaskMarker (pyStrip l) = true) :
    (parseStructuredContent text).tasks.length
      = (splitOnChar '\n' text).countP (fun l => taskMarkerLine (pyStrip l)) := by
  show (finalizeParse (List.foldl parseLine initState (splitOnChar '\n' text))).tasks.length = _
  rw [finalizeParse_count]
  have h := foldl_parseLine_count (splitOnChar '\n' text) initState H
  have e1 : initState.tasks.length = 0 := rfl
  have e2 : initState.currentTask.isSome = false := rfl
  rw [e1, e2] at h
  simp at h ⊢
  omega

/-- C1 witness: a single clean "Task Subtitle" line yields exactly one
task. -/
theorem c1_task_count_witness :
    (parseStructuredContent (toLine "Task Subtitle")).tasks.length = 1 :=
  (c1_task_count (toLine "Task Subtitle") (by decide)).trans (by decide)

/-- C2 counterexample: the line "● a ○ b" contains the level-1 glyph yet
is classified level 0 (the level-0 prefix test comes first), and for
"○ a ○ b" the text is everything after the FIRST "○", not the last. -/
theorem c2_counterexample :
    (parseBulletLine (toLine "● a ○ b")).level = 0 ∧
    (parseBulletLine (toLine "○ a ○ b")).text = toLine "a ○ b" ∧
    toLine "a ○ b" ≠ toLine "b" := by decide

/-- C2 (amended): a line that does NOT start with "● " and contains "○"
is classified level 1 with bullet glyph "○", and its text is everything
after the FIRST occurrence of "○", trimmed. -/
theorem c2_level1_first_glyph (pre post : Line)
    (hmain : isMainLine (pre ++ '○' :: post) = false)
    (hfirst : ('○' : Char) ∉ pre) :
    parseBulletLine (pre ++ '○' :: post)
      = { text := pyStrip post, level := 1, bulletChar := '○',
          bulletType := toLine "bullet" } := by
  have hsub : isSubstr subGlyph (pre ++ '○' :: post) = true := by
    show isSubstr ['○'] _ = true
    rw [isSubstr_isSome, breakOnFirst_char '○' pre post hfirst]
    rfl
  have htail : splitTail subGlyph (pre ++ '○' :: post) = post := by
    show splitTail ['○'] _ = post
    exact splitTail_char '○' pre post hfirst
  rw [parseBulletLine, if_neg, if_pos hsub, htail]
  rw [isMainLine] at hmain
  simp [hmain]

/-- C2 witness: "x ○ y" is classified level 1 with text "y". -/
theorem c2_level1_first_glyph_witness :
    parseBulletLine (toLine "x " ++ '○' :: toLine " y")
      = { text := toLine "y", level := 1, bulletChar := '○',
          bulletType := toLine "bullet" } :=
  (c2_level1_first_glyph (toLine "x ") (toLine " y") (by decide)
    (by decide)).trans (by decide)

/-- C3: evaluation of the balancer at the failing input "● A\n● B": the
level-0 line "● A" is silently dropped because a level-0 line that
arrives while the open chunk has no accumulated sub-points discards the
open chunk instead of emitting it — the returned chunks do NOT cover
every non-blank input line. -/
theorem c3_dropped_line :
    balanceContentDistribution (joinNL [toLine "● A", toLine "● B"]) 3
        = [toLine "● B"] ∧
    balanceChunks [toLine "● A", toLine "● B"] 3 = [[toLine "● B"]] := by decide

/-- C4 counterexample: for the input consisting of the single level-1
line "○ s" the balancer emits the chunk ["○ s"], which contains a
level-1 line but does not begin with a level-0 line. -/
theorem c4_counterexample :
    balanceChunks [toLine "○ s"] 1 = [[toLine "○ s"]] ∧
    isSubLine (toLine "○ s") = true ∧ isMainLine (toLine "○ s") = false ∧
    chunkOK 1 [toLine "○ s"] = false := by decide

/-- C4 (amended): for max_sub_points at least 1, and provided no level-1
line occurs before the first level-0 line of the input, every emitted
chunk satisfies: at most max_sub_points level-1 lines, and if the chunk
contains a level-1 line then its first line is a level-0 line. -/
theorem c4_balancer_invariant (lines : List Line) (maxSub : Nat)
    (hmax : 1 ≤ maxSub) (hord : noEarlySubs lines = true) :
    (balanceChunks lines maxSub).all (chunkOK maxSub) = true := by
  have hinit : balInv maxSub {} := by
    refine ⟨rfl, rfl, Nat.zero_le _, ?_, ?_, ?_⟩
    · intro m hm
      simp at hm
    · intro _
      rfl
    · intro hc
      simp at hc
  have hinv := balance_foldl_inv maxSub hmax lines {} hinit (fun _ => hord)
  obtain ⟨hchunks, hcount, hle, hmain, hnone, hsome⟩ := hinv
  rw [balanceChunks]
  by_cases hcur : (lines.foldl (balanceStep maxSub) {}).cur = []
  · rw [if_neg (by simpa using hcur)]
    exact hchunks
  · rw [if_pos (by simpa using hcur)]
    rw [List.all_append]
    refine (Bool.and_eq_true _ _).mpr ⟨hchunks, ?_⟩
    simp only [List.all_cons, List.all_nil, Bool.and_true]
    refine chunkOK_intro maxSub _ (hcount ▸ hle) ?_
    intro hany
    cases hmp : (lines.foldl (balanceStep maxSub) {}).mainPoint with
    | none =>
      exfalso
      have hall := hnone hmp
      obtain ⟨a, ha, hsub⟩ := List.any_eq_true.mp hany
      have := (List.all_eq_true.mp hall) a ha
      rw [hsub] at this
      simp at this
    | some m =>
      exact hsome (by simp [hmp])

/-- C4 witness: a level-0 line followed by one sub-point, max 1. -/
theorem c4_balancer_invariant_witness :
    (balanceChunks [toLine "● M", toLine "○ a"] 1).all (chunkOK 1) = true :=
  c4_balancer_invariant [toLine "● M", toLine "○ a"] 1 (by decide) (by decide)

/-- C5 counterexample: with two bullets in the future-work section the
parser keeps the LAST one, not the first, refuting "subsequent level-0
bullet lines leave future_work unchanged". -/
theorem c5_counterexample :
    (parseStructuredContent
        (joinNL [toLine "Future Work", toLine "● A", toLine "● B"])).futureWork
      = toLine "● B" ∧ toLine "● B" ≠ toLine "● A" := by decide

/-- C5 (amended): while in the future-work section, EVERY level-0 bullet
line (one that no earlier branch of the cascade captures) overwrites
future_work with that line, so the last such line wins rather than the
first. -/
theorem c5_overwrite (s : ParseState) (raw : Line)
    (hstate : s.currentType = some CType.futureWork)
    (h1 : isSubstr dateMarker (pyStrip raw) = false)
    (h2 : isSubstr purposeMarkerEn (pyStrip raw) = false)
    (h3 : isSubstr purposeMarkerJa (pyStrip raw) = false)
    (h4 : taskMarkerLine (pyStrip raw) = false)
    (h5 : isSubstr problemMarker (pyStrip raw) = false)
    (h6 : isSubstr solutionMarker (pyStrip raw) = false)
    (h7 : isSubstr resultsMarker (pyStrip raw) = false)
    (h8 : isSubstr futureMarkerEn (pyStrip raw) = false)
    (h9 : isSubstr futureMarkerJa (pyStrip raw) = false)
    (hglyph : isSubstr mainGlyph (pyStrip raw) = true) :
    (parseLine s raw).futureWork = pyStrip raw := by
  rw [taskMarkerLine, Bool.and_eq_false_iff] at h4
  rw [parseLine]
  simp [h1, h2, h3, h5, h6, h7, h8, h9, hglyph, hstate]
  rcases h4 with h4 | h4 <;> simp [h4]

/-- C5 witness: a bullet line overwrites the previously captured
future-work value. -/
theorem c5_overwrite_witness :
    (parseLine futureStateFixture (toLine "● X")).futureWork = toLine "● X" :=
  (c5_overwrite futureStateFixture (toLine "● X") (by decide) (by decide)
    (by decide) (by decide) (by decide) (by decide) (by decide) (by decide)
    (by decide) (by decide) (by decide)).trans (by decide)

/-- C6 counterexample: a second "Report Date:" line overwrites the date,
refuting "exactly once; later occurrences leave date unchanged". -/
theorem c6_counterexample :
    (parseStructuredContent
        (joinNL [toLine "Report Date: A", toLine "Report Date: B"])).date
      = toLine "B" ∧ toLine "B" ≠ toLine "A" := by decide

/-- C6 (amended): every line containing "Report Date:" sets date to the
text between the first and second colon of that line (split(":")[1]),
trimmed; later occurrences overwrite, so the final date comes from the
last such line, as expressed by the fold dateClaimSpec. -/
theorem c6_last_wins (text : Line) :
    (parseStructuredContent text).date = dateClaimSpec (splitOnChar '\n' text) := by
  rw [parseStructuredContent, dateClaimSpec]
  simp only [runParser, finalizeParse_date, foldl_parseLine_date]
  rfl

/-- C6 witness: the amended date rule evaluated on a two-date input. -/
theorem c6_last_wins_witness :
    (parseStructuredContent
        (joinNL [toLine "Report Date: A", toLine "Report Date: X"])).date
      = dateClaimSpec (splitOnChar '\n'
          (joinNL [toLine "Report Date: A", toLine "Report Date: X"])) :=
  c6_last_wins (joinNL [toLine "Report Date: A", toLine "Report Date: X"])

/-- C7 counterexample: the title "1.1. ABC】 D" has the claimed form
"N.M. CODE】 Description" with N = 1, yet the whole title is written to
the first paragraph and the second paragraph keeps its template text —
the split only applies to titles starting with "2.". -/
theorem c7_counterexample :
    pasteTextToSubtitleSlide subtitleShapeFixture (toLine "1.1. ABC】 D")
      = [{ paragraphs := [{ runs := [{ text := toLine "1.1. ABC】 D" }] },
                          { runs := [{ text := toLine "orig2" }] }] }] ∧
    toLine "1.1. ABC】 D" ≠ toLine "1.1. ABC】" ∧
    toLine "orig2" ≠ toLine "D" := by decide

/-- C7 (amended): a title starting with "2." that contains ". ", with a
"】" in the part after the first ". ", is split into two paragraphs —
first paragraph run 0 becomes the number part plus the bracketed code
prefix, second paragraph run 0 becomes the remaining description
(leading ":"/" " removed, trimmed); any other non-empty title (wrong
section number or no bracket) goes whole into the first paragraph and
the second paragraph keeps the template default. -/
theorem c7_subtitle_split :
    (∀ (title : Line) (p0 p1 : SubPara) (rs : List SubPara) (ss : List SubShape),
       List.isPrefixOf twoDot title = true →
       isSubstr dotSpace title = true →
       isSubstr closeBracket (subtitleDescPart title) = true →
       pasteTextToSubtitleSlide ({ paragraphs := p0 :: p1 :: rs } :: ss) title
         = { paragraphs :=
               setRun0 p0 (subtitleNumberPart title
                   ++ subtitleCodePart (subtitleDescPart title))
               :: setRun0 p1 (pyStrip (subtitleDescOnly (subtitleDescPart title)))
               :: rs } :: ss) ∧
    (∀ (title : Line) (p0 p1 : SubPara) (rs : List SubPara) (ss : List SubShape),
       title ≠ [] →
       ((isSubstr dotSpace title && List.isPrefixOf twoDot title) = false
         ∨ isSubstr closeBracket (subtitleDescPart title) = false) →
       pasteTextToSubtitleSlide ({ paragraphs := p0 :: p1 :: rs } :: ss) title
         = { paragraphs := setRun0 p0 title :: p1 :: rs } :: ss) :=
  ⟨subtitlePasteBracketCase, subtitlePasteDefaultCase⟩

/-- C7 witness: the title "2.1. ABC】 Hello" splits into "2.1. ABC】" and
"Hello". -/
theorem c7_subtitle_split_witness :
    pasteTextToSubtitleSlide
        [{ paragraphs := [{ runs := [{ text := toLine "orig1" }] },
                          { runs := [{ text := toLine "orig2" }] }] }]
        (toLine "2.1. ABC】 Hello")
      = [{ paragraphs := [{ runs := [{ text := toLine "2.1. ABC】" }] },
                          { runs := [{ text := toLine "Hello" }] }] }] :=
  (c7_subtitle_split.1 (toLine "2.1. ABC】 Hello")
      { runs := [{ text := toLine "orig1" }] }
      { runs := [{ text := toLine "orig2" }] } [] []
      (by decide) (by decide) (by decide)).trans (by decide)

/-- C8: the Scenario A input (date line, one task with problem, solution
with one sub-point, result, no future-work marker) produces exactly nine
slides in order Cover, Agenda, SectionDivider 01, Content (overview),
SectionDivider 02, Subtitle, and three Content slides, with no
SectionDivider 03 and no Future slide. -/
theorem c8_scenario_slides :
    generateFromStructuredFormat c8Input =
      [Slide.cover (toLine "20250815"), Slide.agenda,
       Slide.sectionDivider (toLine "01") (toLine "タスクの目的"),
       Slide.content purposeTitle [],
       Slide.sectionDivider (toLine "02") (toLine "完了済み作業"),
       Slide.subtitle (toLine "T1"),
       Slide.content completedTitle (toLine "● P1"),
       Slide.content completedTitle (joinNL [toLine "● S1", toLine "○ sub1"]),
       Slide.content completedTitle (toLine "● R1")] ∧
    (generateFromStructuredFormat c8Input).length = 9 := by decide

/-- C10: a non-blank line whose stripped form does not start with "● "
and which contains no "○" is rendered as a single level-0 paragraph with
bullet glyph "●" whose run text is the whole stripped line. -/
theorem c10_plain_level0 (l : Line) (hnl : ('\n' : Char) ∉ l)
    (hne : pyStrip l ≠ [])
    (hmain : isMainLine (pyStrip l) = false)
    (hsub : isSubstr subGlyph l = false) :
    parseBulletContent l
      = [{ text := pyStrip l, level := 0, bulletChar := '●',
           bulletType := toLine "bullet" }] := by
  have hsub2 : isSubstr subGlyph (pyStrip l) = false := isSubstr_pyStrip_false _ _ hsub
  rw [parseBulletContent, splitOnChar_no_sep '\n' l hnl]
  simp only [List.foldl_cons, List.foldl_nil, if_neg hne]
  rw [parseBulletLine, if_neg, if_neg]
  · simp [hne]
  · simp [hsub2]
  · rw [isMainLine] at hmain
    simp [hmain]

/-- C10 witness: the plain line "hello" becomes one level-0 bullet
paragraph with text "hello". -/
theorem c10_plain_level0_witness :
    parseBulletContent (toLine "hello")
      = [{ text := toLine "hello", level := 0, bulletChar := '●',
           bulletType := toLine "bullet" }] :=
  (c10_plain_level0 (toLine "hello") (by decide) (by decide) (by decide)
    (by decide)).trans (by decide)

end SlideGen
